import Mathlib

/-!
Shallow embedding of the token-processing pipeline in `src/test/gibberish.py`
(repository `llm-memory`): the lookup-memoizing aggregator `Florbinator`,
the threshold-filtered accumulator `Quazzifier`, and the driving loop
`hlavni_smycka`, together with theorems settling the specification claims.

Python float values are embedded abstractly: a `FloatOps α` record supplies
the arithmetic operations the pipeline applies to its numeric values
(multiplication, true division, `** 0.5`, and the comparison operators).
None of the properties proved below depend on the numeric semantics of
IEEE-754 doubles, so theorems are stated for every `FloatOps` instance;
`ratOps` is a concrete computable instance over `ℚ` used to evaluate
closed statements whose truth is independent of the numeric values.
-/

set_option maxRecDepth 20000
set_option maxHeartbeats 2000000

namespace Gibberish

/-- Abstraction of the Python float operations used by the pipeline.
`blt a b` embeds `a < b`, `bge a b` embeds `a >= b`, `sqrt` embeds
`** 0.5`, `div` embeds true division (also of two ints), and `ofInt`
embeds the implicit int-to-float coercion. -/
structure FloatOps (α : Type) where
  ofInt : Int → α
  mul : α → α → α
  div : α → α → α
  sqrt : α → α
  blt : α → α → Bool
  bge : α → α → Bool

/-- Concrete computable instance over `ℚ`.  The `sqrt` field is a stand-in
(exact rationals have no square root operation); every closed statement
evaluated at this instance is independent of the values `sqrt` returns. -/
def ratOps : FloatOps ℚ where
  ofInt := Int.cast
  mul := fun a b => a * b
  div := fun a b => a / b
  sqrt := fun x => x
  blt := fun a b => decide (a < b)
  bge := fun a b => decide (b ≤ a)

/-- Embedding of the float literal `3.14159` (`Quazzifier.MOOP_CONSTANT`). -/
def FloatOps.moop (ops : FloatOps α) : α :=
  ops.div (ops.ofInt 314159) (ops.ofInt 100000)

/-- Embedding of the float literal `0.001` (`Quazzifier.SPLUNGE_THRESHOLD`). -/
def FloatOps.splunge (ops : FloatOps α) : α :=
  ops.div (ops.ofInt 1) (ops.ofInt 1000)

/-- Python `str.split(sep)` for a one-character separator, on the list of
characters: `"a_b" ↦ ["a","b"]`, `"" ↦ [""]`, `"a__b" ↦ ["a","","b"]`.
Always returns a non-empty list. -/
def splitChar (sep : Char) : List Char → List (List Char)
  | [] => [[]]
  | c :: cs =>
    match splitChar sep cs with
    | [] => [[c]]
    | h :: t => if c = sep then [] :: h :: t else (c :: h) :: t

/-- Python dict assignment `m[k] = v`: replace in place if the key is
present (keeping its position in insertion order), else append. -/
def dictInsert : List (String × β) → String → β → List (String × β)
  | [], k, v => [(k, v)]
  | (k₂, v₂) :: rest, k, v =>
    if k₂ = k then (k, v) :: rest else (k₂, v₂) :: dictInsert rest k v

/-- Python dict lookup on an insertion-ordered association list;
`none` exactly when `k not in m`. -/
def lookupKey : List (String × β) → String → Option β
  | [], _ => none
  | (k₂, v) :: rest, k => if k₂ = k then some v else lookupKey rest k

/-- Python `max(l)` for a non-empty list: keeps the current maximum unless a
later element is strictly greater (`if x > best`).  The `[]` case is junk
(CPython raises `ValueError`); the pipeline only applies it to the
7-element output of `wobulate`. -/
def listMax (ops : FloatOps α) : List α → α
  | [] => ops.ofInt 0
  | x :: xs => xs.foldl (fun best y => if ops.blt best y then y else best) x

/-- Python `min(l)` for a non-empty list (`if x < best`); `[]` case junk. -/
def listMin (ops : FloatOps α) : List α → α
  | [] => ops.ofInt 0
  | x :: xs => xs.foldl (fun best y => if ops.blt y best then y else best) x

/-- State of a `Florbinator` (the lookup-memoizing aggregator):
`zargle`/`plonk` from the constructor, `_snorkel_cache` as an
insertion-ordered map from key to history list (`defaultdict(list)`),
`_blemfark` set to `True` in `__init__`. -/
structure Florbinator where
  zargle : Int
  plonk : String
  snorkel_cache : List (String × List Int)
  blemfark : Bool

/-- `Florbinator.__init__` (defaults `zargle=42`, `plonk="wibble"`). -/
def Florbinator.init (zargle : Int := 42) (plonk : String := "wibble") : Florbinator :=
  { zargle := zargle, plonk := plonk, snorkel_cache := [], blemfark := true }

/-- `Florbinator.wobulate`: for `i in range(num_tweezles)` compute
`splanch = (grix * zargle) / (i + 1)` and collect
`splanch ** 0.5 if _blemfark else splanch`.  Reads fields only;
assigns nothing. -/
def Florbinator.wobulate (f : Florbinator) (ops : FloatOps α) (grix : α)
    (num_tweezles : Nat := 7) : List α :=
  (List.range num_tweezles).map (fun (i : Nat) =>
    let splanch := ops.div (ops.mul grix (ops.ofInt f.zargle)) (ops.ofInt ((i : Int) + 1))
    if f.blemfark then ops.sqrt splanch else splanch)

/-- One step of `Florbinator.defrangulate`'s loop body, acting on the cache:
on a hit return the sum of the stored history and leave the cache unchanged;
on a miss compute `len(blorp) * idx + zargle`, append it as the key's fresh
one-element history (`defaultdict` creates the entry at the end). -/
def defrangulateStep (zargle : Int) (cache : List (String × List Int))
    (idx : Nat) (blorp : String) : Int × List (String × List Int) :=
  match lookupKey cache blorp with
  | some h => (h.sum, cache)
  | none =>
    let score := (blorp.length : Int) * idx + zargle
    (score, cache ++ [(blorp, [score])])

/-- `Florbinator.defrangulate`: fold the per-key step over the enumerated
inputs, building the returned `skronk_map` dict and threading the cache. -/
def Florbinator.defrangulate (f : Florbinator) (inputs : List String) :
    List (String × Int) × Florbinator :=
  let folded := inputs.enum.foldl
    (fun (acc : List (String × Int) × List (String × List Int)) p =>
      let r := defrangulateStep f.zargle acc.2 p.1 p.2
      (dictInsert acc.1 p.2 r.1, r.2))
    ([], f.snorkel_cache)
  (folded.1, { f with snorkel_cache := folded.2 })

/-- State of a `Quazzifier` (the threshold-filtered accumulator): the
aliased `Florbinator`, `dweezil_mode` from the constructor, and
`_grommet_stack` as the insertion-ordered list of `(tag, value)` pairs. -/
structure Quazzifier (α : Type) where
  florb : Florbinator
  dweezil_mode : Bool
  grommet_stack : List (String × α)

/-- `Quazzifier.transmogrify`: `None` on the empty string; otherwise split
on `"_"`, sum the character ordinals over all chunks, wobulate
`gronkitude / len(chunks)`, and reduce with `max * MOOP` in dweezil mode,
`min / MOOP` otherwise.  Reads state only; assigns nothing. -/
def Quazzifier.transmogrify (q : Quazzifier α) (ops : FloatOps α)
    (raw_klunge : String) : Option α :=
  if raw_klunge = "" then none
  else
    let chunks := splitChar '_' raw_klunge.data
    let gronkitude : Nat := (chunks.map (fun chunk => (chunk.map Char.toNat).sum)).sum
    let wobbed := q.florb.wobulate ops (ops.div (ops.ofInt gronkitude) (ops.ofInt chunks.length))
    if q.dweezil_mode then some (ops.mul (listMax ops wobbed) ops.moop)
    else some (ops.div (listMin ops wobbed) ops.moop)

/-- `Quazzifier.accumulate_grommets`: append `(tag, value)`; if the length
now exceeds 100, truncate to the last 50 entries (`stack[-50:]`, i.e. drop
all but the last 50); return the length after any truncation together with
the new state. -/
def Quazzifier.accumulate_grommets (q : Quazzifier α) (tag : String) (value : α) :
    Nat × Quazzifier α :=
  let stack := q.grommet_stack ++ [(tag, value)]
  let stack2 := if stack.length > 100 then stack.drop (stack.length - 50) else stack
  (stack2.length, { q with grommet_stack := stack2 })

/-- `Quazzifier.purge_below_splunge`: return the entries with
`value < SPLUNGE_THRESHOLD` in original order and keep exactly those with
`value >= SPLUNGE_THRESHOLD`, in original order. -/
def Quazzifier.purge_below_splunge (q : Quazzifier α) (ops : FloatOps α) :
    List (String × α) × Quazzifier α :=
  let removed := q.grommet_stack.filter (fun e => ops.blt e.2 ops.splunge)
  let kept := q.grommet_stack.filter (fun e => ops.bge e.2 ops.splunge)
  (removed, { q with grommet_stack := kept })

/-- The fixed 6-token rotation of `hlavni_smycka`. -/
def blibber_tokens : List String :=
  ["frobnostic_wanger", "zilch_poppet", "mega_tronkle",
   "sub_plankton", "ultra_snib", "quasi_blorpitude"]

/-- `blibber_tokens[i % len(blibber_tokens)]` (the default is unreachable:
the index is always in range). -/
def tokenAt (i : Nat) : String :=
  blibber_tokens.getD (i % blibber_tokens.length) ""

/-- The state threaded through the driving loop: the `Quazzifier`
(which owns the aliased `Florbinator`) and the `results` dict. -/
def LoopState (α : Type) : Type := Quazzifier α × List (String × α)

/-- Body of the driving loop of `hlavni_smycka` for index `i` and the
selected `token`: transmogrify; on `None` skip, otherwise record under tag
`f"iter_{i}"` and store the value under the token key in `results`. -/
def loopBody (ops : FloatOps α) (st : LoopState α) (i : Nat) (token : String) :
    LoopState α :=
  match st.1.transmogrify ops token with
  | none => st
  | some val =>
    ((st.1.accumulate_grommets ("iter_" ++ toString i) val).2,
     dictInsert st.2 token val)

/-- Initial loop state of `hlavni_smycka`:
`florb = Florbinator(zargle=17, plonk="snazzle")`,
`quazz = Quazzifier(florb, dweezil_mode=True)`, empty `results`. -/
def loopInit : LoopState α :=
  ({ florb := Florbinator.init 17 "snazzle", dweezil_mode := true,
     grommet_stack := [] }, [])

/-- The loop `for i in range(iterations)` of `hlavni_smycka`. -/
def runLoop (ops : FloatOps α) : Nat → LoopState α
  | 0 => loopInit
  | n + 1 => loopBody ops (runLoop ops n) n (tokenAt n)

/-- The tail of `hlavni_smycka` after the loop: one discarded
`purge_below_splunge`, the `defrangulate` pass over the fixed tokens on the
aliased `Florbinator`, and the final total stored under
`"total_defrangulation"`.  Returns the output dict together with the final
`Quazzifier` state (whose `florb` field is the final aggregator state). -/
def finishRun (ops : FloatOps α) (st : LoopState α) :
    List (String × α) × Quazzifier α :=
  let quazz2 := (st.1.purge_below_splunge ops).2
  let dr := quazz2.florb.defrangulate blibber_tokens
  let total : Int := (dr.1.map Prod.snd).sum
  (dictInsert st.2 "total_defrangulation" (ops.ofInt total),
   { quazz2 with florb := dr.2 })

/-- `hlavni_smycka` with its final component states exposed
(the Python function's `iterations` defaults to 1000). -/
def hlavni_smyckaFull (ops : FloatOps α) (iterations : Nat) :
    List (String × α) × Quazzifier α :=
  finishRun ops (runLoop ops iterations)

/-- `hlavni_smycka(iterations)`: the returned `results` mapping. -/
def hlavni_smycka (ops : FloatOps α) (iterations : Nat) : List (String × α) :=
  (hlavni_smyckaFull ops iterations).1

/-- An abstract operation on the accumulator, for quantifying over
sequences of accumulator calls. -/
inductive AccOp (α : Type) where
  | record (tag : String) (value : α)
  | purge

/-- Apply one accumulator operation to a `Quazzifier` state. -/
def applyAccOp (ops : FloatOps α) (q : Quazzifier α) : AccOp α → Quazzifier α
  | .record t v => (q.accumulate_grommets t v).2
  | .purge => (q.purge_below_splunge ops).2

/-- Apply a sequence of accumulator operations in order. -/
def applyAccOps (ops : FloatOps α) (acts : List (AccOp α)) (q : Quazzifier α) :
    Quazzifier α :=
  acts.foldl (applyAccOp ops) q

/-- A `Quazzifier` whose accumulator starts empty (constructor defaults). -/
def quazzEmpty : Quazzifier α :=
  { florb := Florbinator.init, dweezil_mode := false, grommet_stack := [] }

/-- Record a whole list of entries in order via `accumulate_grommets`. -/
def recordAll (q : Quazzifier α) (es : List (String × α)) : Quazzifier α :=
  es.foldl (fun q e => (q.accumulate_grommets e.1 e.2).2) q

/-- Sum of the recorded history for `k` (`sum` of the empty history when
`k` has no entry). -/
def sumOfHistory (cache : List (String × List Int)) (k : String) : Int :=
  ((lookupKey cache k).getD []).sum

/-- The driving loop as a step relation: `LoopRel ops n st` holds exactly
when `st` is the loop state after `n` iterations of `hlavni_smycka`'s loop.
Used to state determinism of the run as functionality of the relation. -/
inductive LoopRel (ops : FloatOps α) : Nat → LoopState α → Prop where
  | zero : LoopRel ops 0 loopInit
  | step {n : Nat} {st : LoopState α} :
      LoopRel ops n st → LoopRel ops (n + 1) (loopBody ops st n (tokenAt n))

/-- `RunRel ops n out`: `out` is a possible outcome (output mapping and
final `Quazzifier`) of running `hlavni_smycka` for `n` iterations. -/
def RunRel (ops : FloatOps α) (iterations : Nat)
    (out : List (String × α) × Quazzifier α) : Prop :=
  ∃ st, LoopRel ops iterations st ∧ out = finishRun ops st

/-! ### Helper lemmas -/

/-- Unfolding `accumulate_grommets` when the appended stack stays within
the cap: the new stack is just the appended stack. -/
theorem accumulate_no_trunc (q : Quazzifier α) (t : String) (v : α)
    (h : q.grommet_stack.length + 1 ≤ 100) :
    ((q.accumulate_grommets t v).2).grommet_stack = q.grommet_stack ++ [(t, v)] := by
  simp only [Quazzifier.accumulate_grommets, List.length_append, List.length_cons,
    List.length_nil, gt_iff_lt]
  rw [if_neg (by omega)]

/-- Unfolding `accumulate_grommets` when the appended stack exceeds the
cap: the new stack is the appended stack with all but its last 50 entries
dropped. -/
theorem accumulate_trunc (q : Quazzifier α) (t : String) (v : α)
    (h : q.grommet_stack.length + 1 > 100) :
    ((q.accumulate_grommets t v).2).grommet_stack =
      (q.grommet_stack ++ [(t, v)]).drop (q.grommet_stack.length + 1 - 50) := by
  simp only [Quazzifier.accumulate_grommets, List.length_append, List.length_cons,
    List.length_nil, gt_iff_lt]
  rw [if_pos (by omega)]

/-- `accumulate_grommets` never leaves more than 100 entries. -/
theorem accumulate_len_le_100 (q : Quazzifier α) (t : String) (v : α) :
    ((q.accumulate_grommets t v).2).grommet_stack.length ≤ 100 := by
  by_cases h : q.grommet_stack.length + 1 > 100
  · rw [accumulate_trunc q t v h]
    simp only [List.length_drop, List.length_append, List.length_cons, List.length_nil]
    omega
  · rw [accumulate_no_trunc q t v (by omega)]
    simp only [List.length_append, List.length_cons, List.length_nil]
    omega

/-- When the cap triggers, `accumulate_grommets` leaves at most 50 entries
(in fact exactly 50). -/
theorem accumulate_trunc_len_le_50 (q : Quazzifier α) (t : String) (v : α)
    (h : q.grommet_stack.length + 1 > 100) :
    ((q.accumulate_grommets t v).2).grommet_stack.length ≤ 50 := by
  rw [accumulate_trunc q t v h]
  simp only [List.length_drop, List.length_append, List.length_cons, List.length_nil]
  omega

/-- `recordAll` distributes over list append. -/
theorem recordAll_append (q : Quazzifier α) (es fs : List (String × α)) :
    recordAll q (es ++ fs) = recordAll (recordAll q es) fs :=
  List.foldl_append ..

/-- As long as the cap is never exceeded, `recordAll` just appends. -/
theorem recordAll_no_trunc (es : List (String × α)) :
    ∀ q : Quazzifier α, q.grommet_stack.length + es.length ≤ 100 →
      (recordAll q es).grommet_stack = q.grommet_stack ++ es := by
  induction es with
  | nil => intro q _; simp [recordAll]
  | cons e es ih =>
    intro q h
    simp only [List.length_cons] at h
    have hstep : ((q.accumulate_grommets e.1 e.2).2).grommet_stack =
        q.grommet_stack ++ [e] := accumulate_no_trunc q e.1 e.2 (by omega)
    have : recordAll q (e :: es) = recordAll ((q.accumulate_grommets e.1 e.2).2) es := by
      simp [recordAll]
    rw [this, ih ((q.accumulate_grommets e.1 e.2).2) (by rw [hstep]; simp; omega), hstep]
    simp

/-! ### Claims about the accumulator -/

/-- Claim C1: recording 101 entries sequentially into an initially empty
accumulator leaves exactly 50 entries, namely entries 52..101 (1-indexed)
of the inserted sequence in insertion order (`es.drop 51`), and every call
to `accumulate_grommets` returns the stack length after any truncation. -/
theorem C1_record_101 (α : Type) (q q₂ : Quazzifier α) (es : List (String × α))
    (t : String) (v : α) (hq : q.grommet_stack = []) (h : es.length = 101) :
    (recordAll q es).grommet_stack = es.drop 51
    ∧ (recordAll q es).grommet_stack.length = 50
    ∧ (q₂.accumulate_grommets t v).1 = (q₂.accumulate_grommets t v).2.grommet_stack.length := by
  have htail : (es.drop 100).length = 1 := by simp [h]
  obtain ⟨x, hx⟩ := List.length_eq_one.mp htail
  have hsplit : es.take 100 ++ es.drop 100 = es := List.take_append_drop 100 es
  have hfrontlen : (es.take 100).length = 100 := by simp [h]
  have hfront : (recordAll q (es.take 100)).grommet_stack = es.take 100 := by
    have := recordAll_no_trunc (es.take 100) q (by rw [hq, hfrontlen]; simp)
    rwa [hq, List.nil_append] at this
  have key : recordAll (recordAll q (es.take 100)) [x] = recordAll q es := by
    rw [← recordAll_append, ← hx, hsplit]
  have hlast : (recordAll (recordAll q (es.take 100)) [x]).grommet_stack =
      (es.take 100 ++ [x]).drop 51 := by
    have hstep := accumulate_trunc (recordAll q (es.take 100)) x.1 x.2
      (by rw [hfront, hfrontlen]; omega)
    rw [hfront, hfrontlen] at hstep
    have : recordAll (recordAll q (es.take 100)) [x] =
        ((recordAll q (es.take 100)).accumulate_grommets x.1 x.2).2 := by
      simp [recordAll]
    rw [this, hstep]
  have hes : es.take 100 ++ [x] = es := by rw [← hx, hsplit]
  have hmain : (recordAll q es).grommet_stack = es.drop 51 := by
    rw [← key, hlast, hes]
  refine ⟨hmain, ?_, rfl⟩
  rw [hmain, List.length_drop, h]

/-- Witness for C1 at a concrete 101-entry input. -/
theorem C1_record_101_witness :
    (recordAll (quazzEmpty (α := ℚ)) (List.replicate 101 ("", (0 : ℚ)))).grommet_stack
      = (List.replicate 101 ("", (0 : ℚ))).drop 51
    ∧ (recordAll (quazzEmpty (α := ℚ)) (List.replicate 101 ("", (0 : ℚ)))).grommet_stack.length = 50
    ∧ ((quazzEmpty (α := ℚ)).accumulate_grommets "t" 1).1
      = ((quazzEmpty (α := ℚ)).accumulate_grommets "t" 1).2.grommet_stack.length :=
  C1_record_101 ℚ quazzEmpty quazzEmpty (List.replicate 101 ("", 0)) "t" 1 rfl (by simp)

/-- Claim C2 as stated is false: inserting the 101st entry discards the
oldest 51 entries, not the oldest 50 — the post-truncation stack is not the
appended sequence with only its first 50 entries dropped. -/
theorem C2_counterexample :
    (({ florb := Florbinator.init, dweezil_mode := false,
        grommet_stack := List.replicate 100 ("", (0 : ℚ)) } :
          Quazzifier ℚ).accumulate_grommets "x" 1).2.grommet_stack.length = 50
    ∧ (List.replicate 100 ("", (0 : ℚ)) ++ [("x", (1 : ℚ))]).length
        - (({ florb := Florbinator.init, dweezil_mode := false,
              grommet_stack := List.replicate 100 ("", (0 : ℚ)) } :
                Quazzifier ℚ).accumulate_grommets "x" 1).2.grommet_stack.length = 51
    ∧ (({ florb := Florbinator.init, dweezil_mode := false,
          grommet_stack := List.replicate 100 ("", (0 : ℚ)) } :
            Quazzifier ℚ).accumulate_grommets "x" 1).2.grommet_stack
        ≠ (List.replicate 100 ("", (0 : ℚ)) ++ [("x", (1 : ℚ))]).drop 50 := by
  refine ⟨by decide, by decide, by decide⟩

/-- Claim C2 amended: whenever an insertion makes the stack length exceed
100, the truncation retains exactly the most recent 50 entries, discarding
the oldest `length − 50` entries (51 of them in the standard case of
inserting into a 100-entry stack) — a hard reset to the last 50, not a
sliding trim by one. -/
theorem C2_trunc_keeps_last_50 (α : Type) (q : Quazzifier α) (t : String) (v : α)
    (h : q.grommet_stack.length + 1 > 100) :
    (q.accumulate_grommets t v).2.grommet_stack =
      (q.grommet_stack ++ [(t, v)]).drop (q.grommet_stack.length + 1 - 50)
    ∧ (q.accumulate_grommets t v).2.grommet_stack.length = 50
    ∧ (q.grommet_stack ++ [(t, v)]).length
        - (q.accumulate_grommets t v).2.grommet_stack.length
        = q.grommet_stack.length + 1 - 50 := by
  have h1 := accumulate_trunc q t v h
  refine ⟨h1, ?_, ?_⟩
  · rw [h1]
    simp only [List.length_drop, List.length_append, List.length_cons, List.length_nil]
    omega
  · rw [h1]
    simp only [List.length_drop, List.length_append, List.length_cons, List.length_nil]
    omega

/-- Witness for the amended C2 at a concrete full stack. -/
theorem C2_trunc_keeps_last_50_witness :
    (({ florb := Florbinator.init, dweezil_mode := false,
        grommet_stack := List.replicate 100 ("", (0 : ℚ)) } :
          Quazzifier ℚ).accumulate_grommets "x" 1).2.grommet_stack =
      (List.replicate 100 ("", (0 : ℚ)) ++ [("x", (1 : ℚ))]).drop
        ((List.replicate 100 ("", (0 : ℚ))).length + 1 - 50)
    ∧ (({ florb := Florbinator.init, dweezil_mode := false,
          grommet_stack := List.replicate 100 ("", (0 : ℚ)) } :
            Quazzifier ℚ).accumulate_grommets "x" 1).2.grommet_stack.length = 50
    ∧ (List.replicate 100 ("", (0 : ℚ)) ++ [("x", (1 : ℚ))]).length
        - (({ florb := Florbinator.init, dweezil_mode := false,
              grommet_stack := List.replicate 100 ("", (0 : ℚ)) } :
                Quazzifier ℚ).accumulate_grommets "x" 1).2.grommet_stack.length
        = (List.replicate 100 ("", (0 : ℚ))).length + 1 - 50 :=
  C2_trunc_keeps_last_50 ℚ
    { florb := Florbinator.init, dweezil_mode := false,
      grommet_stack := List.replicate 100 ("", (0 : ℚ)) } "x" 1 (by simp)

/-- Claim C6: after any insertion completing in any state reachable from
the empty accumulator by a sequence of operations, the stack length is at
most 100; and when the insertion triggers the cap, at most 50. -/
theorem C6_invariant (α : Type) (ops : FloatOps α) (acts : List (AccOp α))
    (t : String) (v : α) :
    ((applyAccOps ops acts quazzEmpty).accumulate_grommets t v).2.grommet_stack.length ≤ 100
    ∧ ((applyAccOps ops acts quazzEmpty).grommet_stack.length + 1 > 100 →
        ((applyAccOps ops acts quazzEmpty).accumulate_grommets t v).2.grommet_stack.length ≤ 50) :=
  ⟨accumulate_len_le_100 _ t v, fun h => accumulate_trunc_len_le_50 _ t v h⟩

/-- Witness for C6 after 100 recorded entries (the 101st triggers the cap). -/
theorem C6_invariant_witness :
    ((applyAccOps ratOps (List.replicate 100 (AccOp.record "" (0 : ℚ)))
        quazzEmpty).accumulate_grommets "t" 1).2.grommet_stack.length ≤ 100
    ∧ ((applyAccOps ratOps (List.replicate 100 (AccOp.record "" (0 : ℚ)))
        quazzEmpty).accumulate_grommets "t" 1).2.grommet_stack.length ≤ 50 :=
  ⟨(C6_invariant ℚ ratOps (List.replicate 100 (AccOp.record "" 0)) "t" 1).1,
   (C6_invariant ℚ ratOps (List.replicate 100 (AccOp.record "" 0)) "t" 1).2 (by decide)⟩

/-! ### Claims about the purge operation -/

/-- In `ratOps`, `>=` is the boolean complement of `<` — the coherence that
Python floats satisfy on every non-NaN value (and the pipeline's values,
square roots of positive quotients, are never NaN). -/
theorem ratOps_ord : ∀ a b : ℚ, ratOps.bge a b = !ratOps.blt a b := by
  intro a b
  by_cases h : a < b
  · simp [ratOps, h, not_le.mpr h]
  · simp [ratOps, h, not_lt.mp h]

/-- A filter and its complement-filter split the length of a list. -/
theorem length_filter_partition (p : β → Bool) (l : List β) :
    (l.filter p).length + (l.filter (fun x => !p x)).length = l.length := by
  induction l with
  | nil => rfl
  | cons x xs ih => by_cases h : p x <;> simp [List.filter_cons, h] <;> omega

/-- Claim C7: `purge_below_splunge` partitions the stack against the fixed
threshold `SPLUNGE_THRESHOLD = 0.001`: it returns exactly the entries with
`value < 0.001` and retains exactly those with `value >= 0.001`, both as
order-preserving sublists of the original stack, and the two parts exhaust
the stack (given that `>=` is the complement of `<`, as on non-NaN
floats). -/
theorem C7_purge_partition (α : Type) (ops : FloatOps α)
    (hord : ∀ a b : α, ops.bge a b = !ops.blt a b) (q : Quazzifier α) :
    (q.purge_below_splunge ops).1
        = q.grommet_stack.filter (fun e => ops.blt e.2 ops.splunge)
    ∧ (q.purge_below_splunge ops).2.grommet_stack
        = q.grommet_stack.filter (fun e => ops.bge e.2 ops.splunge)
    ∧ List.Sublist ((q.purge_below_splunge ops).1) q.grommet_stack
    ∧ List.Sublist ((q.purge_below_splunge ops).2.grommet_stack) q.grommet_stack
    ∧ (q.purge_below_splunge ops).1.length
        + (q.purge_below_splunge ops).2.grommet_stack.length
        = q.grommet_stack.length := by
  refine ⟨rfl, rfl, List.filter_sublist _, List.filter_sublist _, ?_⟩
  show (q.grommet_stack.filter (fun e => ops.blt e.2 ops.splunge)).length
      + (q.grommet_stack.filter (fun e => ops.bge e.2 ops.splunge)).length
      = q.grommet_stack.length
  have hcongr : q.grommet_stack.filter (fun e => ops.bge e.2 ops.splunge)
      = q.grommet_stack.filter (fun e => !ops.blt e.2 ops.splunge) := by
    simp only [hord]
  rw [hcongr]
  exact length_filter_partition _ q.grommet_stack

/-- Witness for C7 on a concrete three-entry stack. -/
theorem C7_purge_partition_witness :
    (({ florb := Florbinator.init, dweezil_mode := false,
        grommet_stack := [("a", (1 : ℚ)/2000), ("b", 1), ("c", 0)] } :
          Quazzifier ℚ).purge_below_splunge ratOps).1
        = [("a", (1 : ℚ)/2000), ("b", 1), ("c", 0)].filter
            (fun e => ratOps.blt e.2 ratOps.splunge)
    ∧ (({ florb := Florbinator.init, dweezil_mode := false,
          grommet_stack := [("a", (1 : ℚ)/2000), ("b", 1), ("c", 0)] } :
            Quazzifier ℚ).purge_below_splunge ratOps).2.grommet_stack
        = [("a", (1 : ℚ)/2000), ("b", 1), ("c", 0)].filter
            (fun e => ratOps.bge e.2 ratOps.splunge)
    ∧ List.Sublist
        ((({ florb := Florbinator.init, dweezil_mode := false,
             grommet_stack := [("a", (1 : ℚ)/2000), ("b", 1), ("c", 0)] } :
               Quazzifier ℚ).purge_below_splunge ratOps).1)
        [("a", (1 : ℚ)/2000), ("b", 1), ("c", 0)]
    ∧ List.Sublist
        ((({ florb := Florbinator.init, dweezil_mode := false,
             grommet_stack := [("a", (1 : ℚ)/2000), ("b", 1), ("c", 0)] } :
               Quazzifier ℚ).purge_below_splunge ratOps).2.grommet_stack)
        [("a", (1 : ℚ)/2000), ("b", 1), ("c", 0)]
    ∧ (({ florb := Florbinator.init, dweezil_mode := false,
          grommet_stack := [("a", (1 : ℚ)/2000), ("b", 1), ("c", 0)] } :
            Quazzifier ℚ).purge_below_splunge ratOps).1.length
        + (({ florb := Florbinator.init, dweezil_mode := false,
              grommet_stack := [("a", (1 : ℚ)/2000), ("b", 1), ("c", 0)] } :
                Quazzifier ℚ).purge_below_splunge ratOps).2.grommet_stack.length
        = ([("a", (1 : ℚ)/2000), ("b", 1), ("c", 0)] : List (String × ℚ)).length :=
  C7_purge_partition ℚ ratOps ratOps_ord
    { florb := Florbinator.init, dweezil_mode := false,
      grommet_stack := [("a", (1 : ℚ)/2000), ("b", 1), ("c", 0)] }

/-- Claim C8: a second consecutive `purge_below_splunge` removes nothing —
every entry surviving the first purge satisfies `value >= 0.001` and hence
fails `value < 0.001` (given that `>=` is the complement of `<`). -/
theorem C8_purge_twice_empty (α : Type) (ops : FloatOps α)
    (hord : ∀ a b : α, ops.bge a b = !ops.blt a b) (q : Quazzifier α) :
    (((q.purge_below_splunge ops).2).purge_below_splunge ops).1 = [] := by
  show ((q.grommet_stack.filter (fun e => ops.bge e.2 ops.splunge)).filter
      (fun e => ops.blt e.2 ops.splunge)) = []
  induction q.grommet_stack with
  | nil => rfl
  | cons x xs ih =>
    by_cases h : ops.blt x.2 ops.splunge
    · have hbge : ops.bge x.2 ops.splunge = false := by rw [hord, h]; rfl
      simp [List.filter_cons, hbge, ih]
    · by_cases h2 : ops.bge x.2 ops.splunge <;> simp [List.filter_cons, h, h2, ih]

/-- Witness for C8 on a concrete stack with entries on both sides of the
threshold. -/
theorem C8_purge_twice_empty_witness :
    ((({ florb := Florbinator.init, dweezil_mode := false,
         grommet_stack := [("lo", (0 : ℚ)), ("hi", 2)] } :
           Quazzifier ℚ).purge_below_splunge ratOps).2.purge_below_splunge ratOps).1 = [] :=
  C8_purge_twice_empty ℚ ratOps ratOps_ord
    { florb := Florbinator.init, dweezil_mode := false,
      grommet_stack := [("lo", (0 : ℚ)), ("hi", 2)] }

/-! ### Claim about the aggregator -/

/-- A key absent from the front part of an appended map is looked up in the
back part. -/
theorem lookupKey_append_of_none (m m₂ : List (String × β)) (k : String)
    (h : lookupKey m k = none) : lookupKey (m ++ m₂) k = lookupKey m₂ k := by
  induction m with
  | nil => rfl
  | cons e rest ih =>
    obtain ⟨k₂, v⟩ := e
    by_cases hk : k₂ = k
    · exfalso
      simp [lookupKey, hk] at h
    · simp only [List.cons_append, lookupKey, hk, if_false] at h ⊢
      exact ih h

/-- Claim C3: the per-key step of `defrangulate` returns
`len(key) * position + base` exactly on a miss (position = the key's index,
base = `zargle`), after which that value equals the sum of the key's
history; on a hit it returns the sum of the previously recorded scores,
leaving the cache unchanged and ignoring the new position and base. -/
theorem C3_defrangulate_step (f : Florbinator) (idx idx₂ : Nat) (blorp : String)
    (h : List Int) (zargle₂ : Int) :
    (lookupKey f.snorkel_cache blorp = none →
       (defrangulateStep f.zargle f.snorkel_cache idx blorp).1
           = (blorp.length : Int) * idx + f.zargle
       ∧ sumOfHistory (defrangulateStep f.zargle f.snorkel_cache idx blorp).2 blorp
           = (defrangulateStep f.zargle f.snorkel_cache idx blorp).1)
    ∧ (lookupKey f.snorkel_cache blorp = some h →
       (defrangulateStep f.zargle f.snorkel_cache idx blorp).1 = h.sum
       ∧ (defrangulateStep f.zargle f.snorkel_cache idx blorp).2 = f.snorkel_cache
       ∧ (defrangulateStep zargle₂ f.snorkel_cache idx₂ blorp).1 = h.sum) := by
  constructor
  · intro hmiss
    have h1 : (defrangulateStep f.zargle f.snorkel_cache idx blorp).1
        = (blorp.length : Int) * idx + f.zargle := by
      simp [defrangulateStep, hmiss]
    have h2 : (defrangulateStep f.zargle f.snorkel_cache idx blorp).2
        = f.snorkel_cache ++ [(blorp, [(blorp.length : Int) * idx + f.zargle])] := by
      simp [defrangulateStep, hmiss]
    refine ⟨h1, ?_⟩
    rw [sumOfHistory, h2, lookupKey_append_of_none _ _ _ hmiss, h1]
    simp [lookupKey]
  · intro hhit
    refine ⟨?_, ?_, ?_⟩ <;> simp [defrangulateStep, hhit]

/-- Witness for C3: a miss on `"ab"` at index 2 with base 17
(score `2 * 2 + 17 = 21`), and a hit on `"zz"` with history `[3, 4]`
returning `7` for any position and base. -/
theorem C3_defrangulate_step_witness :
    ((defrangulateStep 17 [] 2 "ab").1 = ("ab".length : Int) * 2 + 17
     ∧ sumOfHistory (defrangulateStep 17 [] 2 "ab").2 "ab"
         = (defrangulateStep 17 [] 2 "ab").1)
    ∧ ((defrangulateStep 17 [("zz", [3, 4])] 1 "zz").1 = ([3, 4] : List Int).sum
       ∧ (defrangulateStep 17 [("zz", [3, 4])] 1 "zz").2 = [("zz", [3, 4])]
       ∧ (defrangulateStep 99 [("zz", [3, 4])] 5 "zz").1 = ([3, 4] : List Int).sum) :=
  ⟨(C3_defrangulate_step (Florbinator.init 17) 2 0 "ab" [] 0).1 rfl,
   (C3_defrangulate_step
      { zargle := 17, plonk := "wibble", snorkel_cache := [("zz", [3, 4])],
        blemfark := true } 1 5 "zz" [3, 4] 99).2 rfl⟩

/-! ### Claims about the driving loop -/

/-- Claim C4 as stated is false: the output mapping of `hlavni_smycka`
carries the final aggregate under the key `"total_defrangulation"`, not
under the key `"total"` — at `iterations = 0` the output holds exactly one
key and it is not `"total"`. -/
theorem C4_counterexample :
    ¬ ("total" ∈ (hlavni_smycka ratOps 0).map Prod.fst)
    ∧ (hlavni_smycka ratOps 0).map Prod.fst = ["total_defrangulation"] := by
  have hk : (hlavni_smycka ratOps 0).map Prod.fst = ["total_defrangulation"] := rfl
  exact ⟨by rw [hk]; decide, hk⟩

/-- Claim C4 amended: the output mapping carries the final aggregate under
the key `"total_defrangulation"`: `iterations = 6` yields exactly the 6
per-token entries (in rotation order) plus that key, `iterations = 0`
yields only that key, and under it sits the defrangulation total
(`294 = Σ len(tokenᵢ) * i + 17`). -/
theorem C4_total_key (α : Type) (ops : FloatOps α) :
    (hlavni_smycka ops 6).map Prod.fst = blibber_tokens ++ ["total_defrangulation"]
    ∧ (hlavni_smycka ops 0).map Prod.fst = ["total_defrangulation"]
    ∧ lookupKey (hlavni_smycka ops 0) "total_defrangulation" = some (ops.ofInt 294)
    ∧ lookupKey (hlavni_smycka ops 6) "total_defrangulation" = some (ops.ofInt 294) :=
  ⟨rfl, rfl, rfl, rfl⟩

/-- The loop body never changes the `Florbinator` (the transform only
reads it, and recording only touches the grommet stack). -/
theorem loopBody_florb (ops : FloatOps α) (st : LoopState α) (i : Nat)
    (token : String) : (loopBody ops st i token).1.florb = st.1.florb := by
  unfold loopBody
  cases st.1.transmogrify ops token with
  | none => rfl
  | some val => rfl

/-- Claim C5 as stated is false: processing a non-empty token through the
transform does not change the aggregator's history mapping — after the
first loop iteration on `"frobnostic_wanger"`, and still after all six
iterations of `run(6)`, the `_snorkel_cache` is unchanged (empty). -/
theorem C5_counterexample :
    (loopBody ratOps loopInit 0 "frobnostic_wanger").1.florb.snorkel_cache = []
    ∧ (runLoop ratOps 6).1.florb.snorkel_cache = [] :=
  ⟨rfl, rfl⟩

/-- Claim C5 amended: for every non-empty token the transform derives its
value through `wobulate`, which produces exactly 7 derived values (with
divisors `1..7`), but it never calls the aggregator's lookup-or-compute
and never mutates the shared history mapping: the whole `Florbinator`
(history included) is unchanged across the entire driving loop, and the
history only changes in the final `defrangulate` pass. -/
theorem C5_transform_pure (α : Type) (ops : FloatOps α) (n : Nat)
    (st : LoopState α) (i : Nat) (token : String) (f : Florbinator) (grix : α) :
    (runLoop ops n).1.florb = Florbinator.init 17 "snazzle"
    ∧ (loopBody ops st i token).1.florb = st.1.florb
    ∧ (f.wobulate ops grix 7).length = 7
    ∧ (runLoop ops n).1.florb.snorkel_cache = [] := by
  have hloop : ∀ m : Nat, (runLoop ops (m : Nat) : LoopState α).1.florb
      = Florbinator.init 17 "snazzle" := by
    intro m
    induction m with
    | zero => rfl
    | succ m ih => rw [runLoop, loopBody_florb, ih]
  refine ⟨hloop n, loopBody_florb ops st i token, ?_, by rw [hloop n]; rfl⟩
  unfold Florbinator.wobulate
  rw [List.length_map, List.length_range]

/-- Claim C9: the transform yields an absence signal (not a fault) on the
empty string, and a loop iteration whose token is empty leaves the loop
state — accumulator stack and output mapping alike — entirely unchanged
(skip-and-continue; totality of the embedding is the no-fault claim). -/
theorem C9_empty_token_skips (α : Type) (ops : FloatOps α) (q : Quazzifier α)
    (st : LoopState α) (i : Nat) :
    q.transmogrify ops "" = none ∧ loopBody ops st i "" = st :=
  ⟨rfl, rfl⟩

/-- A `LoopRel` derivation pins the loop state to `runLoop`. -/
theorem loopRel_eq (ops : FloatOps α) {n : Nat} {st : LoopState α}
    (h : LoopRel ops n st) : st = runLoop ops n := by
  induction h with
  | zero => rfl
  | step _ ih => rw [ih]; rfl

/-- Claim C10: the entry point is deterministic — any two outcomes of
running the loop-plus-finalization relation for the same `iterations` are
equal (output mapping and final component states alike), and equal to the
functional run `hlavni_smyckaFull`; the pipeline draws on no randomness. -/
theorem C10_deterministic (α : Type) (ops : FloatOps α) (n : Nat)
    (o₁ o₂ : List (String × α) × Quazzifier α)
    (h₁ : RunRel ops n o₁) (h₂ : RunRel ops n o₂) :
    o₁ = o₂ ∧ o₁ = hlavni_smyckaFull ops n := by
  obtain ⟨s₁, hs₁, rfl⟩ := h₁
  obtain ⟨s₂, hs₂, rfl⟩ := h₂
  rw [loopRel_eq ops hs₁, loopRel_eq ops hs₂]
  exact ⟨rfl, rfl⟩

/-- Witness for C10 at `iterations = 0` over the concrete `ℚ` instance. -/
theorem C10_deterministic_witness :
    hlavni_smyckaFull ratOps 0 = finishRun ratOps loopInit
    ∧ hlavni_smyckaFull ratOps 0 = hlavni_smyckaFull ratOps 0 :=
  C10_deterministic ℚ ratOps 0 (hlavni_smyckaFull ratOps 0) (finishRun ratOps loopInit)
    ⟨loopInit, LoopRel.zero, rfl⟩ ⟨loopInit, LoopRel.zero, rfl⟩

end Gibberish
